import Mathlib

/-!
Shallow embedding of `src/sender_for_rpi.ino` (RideLink sender firmware).

The firmware runs a single-threaded Arduino loop that
  * every `POLL_INTERVAL` ms diffs the set of WiFi stations associated to the
    soft AP against a stored previous list (`handleStationChanges`), emitting
    one JSON line per joined / left station over the serial channel;
  * on every iteration polls the MFRC522 reader and, when a card is read,
    emits one JSON line with the card UID rendered in hex, plus a debug line.

Modelling conventions:
  * MAC addresses and card UID bytes are `Nat` values; `uint8_t` truncation is
    made explicit with `% 256` where the C code stores a byte.
  * `String` stands for the Arduino `String`; equality is byte-wise, matching
    `operator==`.
  * The serial channel is modelled as the list of newline-terminated lines
    written so far (`Serial.println` appends one element; the
    `Serial.print("RFID read: ")` followed by `Serial.println(uid)` pair
    produces the single line `"RFID read: " ++ uid`).
  * `millis()` calls within one loop iteration are all modelled as the
    iteration's time `now` (the loop body runs in well under a millisecond
    compared to the 2000 ms poll interval; no claim depends on intra-iteration
    clock advance).
  * `unsigned long` arithmetic (`now - lastPoll`) is 32-bit wraparound
    subtraction, written out with `% 2 ^ 32`.
-/

/-- The constant `const unsigned long POLL_INTERVAL = 2000;`. -/
def POLL_INTERVAL : Nat := 2000

/-- Uppercase hexadecimal digit for a value `0 ≤ n < 16`, as produced by
`sprintf "%02X"`. -/
def hexDigit (n : Nat) : Char :=
  if n < 10 then Char.ofNat (48 + n) else Char.ofNat (55 + n)

/-- The call `sprintf(buf, "%02X", b)` for a byte `b`: exactly two uppercase hex
digits (the argument is a `uint8_t`, so it is reduced mod 256). -/
def byteHex2 (b : Nat) : String :=
  String.mk [hexDigit (b % 256 / 16), hexDigit (b % 256 % 16)]

/-- A station's 6-byte hardware address, as stored in
`sta_list.sta[i].mac` (`uint8_t mac[6]`). -/
structure MacAddr where
  b0 : Nat
  b1 : Nat
  b2 : Nat
  b3 : Nat
  b4 : Nat
  b5 : Nat
deriving DecidableEq, Repr

/-- Function `macToString`: renders the six bytes as a colon-separated uppercase hex
string via `sprintf "%02X:%02X:%02X:%02X:%02X:%02X"`. -/
def macToString (m : MacAddr) : String :=
  byteHex2 m.b0 ++ ":" ++ byteHex2 m.b1 ++ ":" ++ byteHex2 m.b2 ++ ":" ++
  byteHex2 m.b3 ++ ":" ++ byteHex2 m.b4 ++ ":" ++ byteHex2 m.b5

/-- Function `getConnectedStationMACs`: queries `esp_wifi_ap_get_sta_list`.  The query
outcome is the parameter: `none` models `err != ESP_OK` (the function then
returns the empty list); `some stas` models a successful query returning the
stations' addresses, which are rendered with `macToString`. -/
def getConnectedStationMACs (query : Option (List MacAddr)) : List String :=
  match query with
  | none => []
  | some stas => stas.map macToString

/-- The inner membership scan
`for (auto &p : l) { if (p == x) { found = true; break; } }`. -/
def foundIn (x : String) : List String → Bool
  | [] => false
  | p :: rest => if p == x then true else foundIn x rest

/-- The events the firmware can detect (`ts` is the `millis()` stamp placed
in the JSON document). -/
inductive Event where
  | radioJoined (mac : String) (ts : Nat)
  | radioLeft (mac : String) (ts : Nat)
  | cardPresented (uid : String) (ts : Nat)
deriving DecidableEq, Repr

/-- The serialized JSON line for a `connected` / `disconnected` station event:
`{"type":"wifi_event","event":...,"mac":...,"ts":...}` (ArduinoJson keeps
insertion order and emits no whitespace). -/
def wifiLine (ev mac : String) (ts : Nat) : String :=
  "\x7b\"type\":\"wifi_event\",\"event\":\"" ++ ev ++ "\",\"mac\":\"" ++ mac ++
  "\",\"ts\":" ++ toString ts ++ "\x7d"

/-- The serialized JSON line for a card event:
`{"type":"rfid","uid":...,"ts":...}`. -/
def rfidLine (uid : String) (ts : Nat) : String :=
  "\x7b\"type\":\"rfid\",\"uid\":\"" ++ uid ++ "\",\"ts\":" ++ toString ts ++ "\x7d"

/-- The JSON line `sendJson` writes for each event (what `serializeJson`
produces from the `StaticJsonDocument` built for that event). -/
def eventLine : Event → String
  | .radioJoined mac ts => wifiLine "connected" mac ts
  | .radioLeft mac ts => wifiLine "disconnected" mac ts
  | .cardPresented uid ts => rfidLine uid ts

/-- First loop of `handleStationChanges`: for each `mac` in `current`, if it
is not found in `prevStations`, build the `connected` document and
`sendJson` it. -/
def connectedEvents (prev current : List String) (ts : Nat) : List Event :=
  current.filterMap fun mac =>
    if foundIn mac prev then none else some (Event.radioJoined mac ts)

/-- Second loop of `handleStationChanges`: for each `mac` in `prevStations`,
if it is not found in `current`, build the `disconnected` document and
`sendJson` it. -/
def disconnectedEvents (prev current : List String) (ts : Nat) : List Event :=
  prev.filterMap fun mac =>
    if foundIn mac current then none else some (Event.radioLeft mac ts)

/-- Result of one `handleStationChanges` call: the events in emission order,
the serial lines they produced, and the new value of `prevStations`. -/
structure TickResult where
  events : List Event
  lines : List String
  prev : List String
deriving Repr

/-- Function `handleStationChanges` on a given stored `prev` list and current snapshot
(the list `getConnectedStationMACs` returned): emits `connected` events for
current stations not found in `prev`, then `disconnected` events for previous
stations not found in `current`, then does `prevStations = current`. -/
def handleStationChanges (prev current : List String) (ts : Nat) : TickResult :=
  let evs := connectedEvents prev current ts ++ disconnectedEvents prev current ts
  { events := evs
    lines := evs.map eventLine
    prev := current }

/-- The card-UID rendering loop in `loop()`: for each byte,
`if (uidByte < 0x10) uidString += "0";` and then `sprintf "%02X"` is
appended — so bytes below `0x10` get an extra leading zero on top of the
two-digit form. -/
def uidString (bytes : List Nat) : String :=
  bytes.foldl (fun s b => s ++ (if b % 256 < 16 then "0" else "") ++ byteHex2 b) ""

/-- The `void sendJson(const JsonDocument&)` transport model: serializes the
document to `line` and calls `Serial.println`.  `channelOk` models whether
the transport write succeeds (`out` is extended) or fails (nothing written).
The C function's return type is `void`, so the caller always receives `()`
regardless of the write outcome — the second component is the caller-visible
return value. -/
def sendJson (channelOk : Bool) (out : List String) (line : String) :
    List String × Unit :=
  (if channelOk then out ++ [line] else out, ())

/-- Module-level mutable state read and written by `loop()`. -/
structure LoopState where
  prevStations : List String
  lastPoll : Nat
deriving Repr, DecidableEq

/-- The condition `now - lastPoll >= POLL_INTERVAL` with `unsigned long` (32-bit) wraparound
subtraction; `now` and `lastPoll` are values of `millis()`, below `2 ^ 32`. -/
def tickDue (now lastPoll : Nat) : Bool :=
  POLL_INTERVAL ≤ (2 ^ 32 + now - lastPoll) % 2 ^ 32

/-- Result of one `loop()` iteration: the new module state, the detected
events in order, and the serial lines written, in order. -/
structure IterResult where
  state : LoopState
  events : List Event
  lines : List String
deriving Repr

/-- One iteration of `loop()`.
`query` is the radio subsystem's answer for this iteration (used only if the
tick is due); `card` is `some uidBytes` when
`PICC_IsNewCardPresent() && PICC_ReadCardSerial()` both succeed, with
`uidBytes` the `uid.uidByte[0..uid.size)` bytes, and `none` otherwise.
On a card read the firmware sends the rfid JSON line and then prints the
debug line `RFID read: <uid>`. -/
def loopIteration (st : LoopState) (now : Nat) (query : Option (List MacAddr))
    (card : Option (List Nat)) : IterResult :=
  let stationPart : LoopState × List Event × List String :=
    if tickDue now st.lastPoll then
      let r := handleStationChanges st.prevStations (getConnectedStationMACs query) now
      (⟨r.prev, now⟩, r.events, r.lines)
    else
      (st, [], [])
  match card with
  | none => ⟨stationPart.1, stationPart.2.1, stationPart.2.2⟩
  | some bytes =>
      let uid := uidString bytes
      ⟨stationPart.1,
        stationPart.2.1 ++ [Event.cardPresented uid now],
        stationPart.2.2 ++ [rfidLine uid now, "RFID read: " ++ uid]⟩

/-- Repeated station ticks: process the snapshots in order, starting from the
stored list `prev`, threading `prevStations` exactly as the firmware does, and
concatenate the emitted events.  (Event timestamps are irrelevant to the
per-peer alternation property, so all ticks are stamped `0`.) -/
def runPolls (prev : List String) : List (List String) → List Event
  | [] => []
  | s :: rest => (handleStationChanges prev s 0).events ++ runPolls s rest

/-- The per-peer join/leave trace of an event list: `true` for a
`radioJoined` of `mac`, `false` for a `radioLeft` of `mac`; other events
dropped. -/
def peerTrace (mac : String) (evs : List Event) : List Bool :=
  evs.filterMap fun e =>
    match e with
    | .radioJoined m _ => if m = mac then some true else none
    | .radioLeft m _ => if m = mac then some false else none
    | .cardPresented _ _ => none

/-- MACs carried by the `radioJoined` events of a list. -/
def joinedMacs (evs : List Event) : List String :=
  evs.filterMap fun e =>
    match e with
    | .radioJoined m _ => some m
    | _ => none

/-- MACs carried by the `radioLeft` events of a list. -/
def leftMacs (evs : List Event) : List String :=
  evs.filterMap fun e =>
    match e with
    | .radioLeft m _ => some m
    | _ => none

/-- Whether an event is one of the two wifi variants. -/
def isWifiEvent : Event → Bool
  | .radioJoined _ _ => true
  | .radioLeft _ _ => true
  | .cardPresented _ _ => false

/-- Whether an event is a card event. -/
def isCardEvent : Event → Bool
  | .cardPresented _ _ => true
  | _ => false

/-! ### Basic unfolding lemmas -/

lemma handleStationChanges_events (prev cur : List String) (ts : Nat) :
    (handleStationChanges prev cur ts).events
      = connectedEvents prev cur ts ++ disconnectedEvents prev cur ts := rfl

lemma handleStationChanges_prev (prev cur : List String) (ts : Nat) :
    (handleStationChanges prev cur ts).prev = cur := rfl

lemma handleStationChanges_lines (prev cur : List String) (ts : Nat) :
    (handleStationChanges prev cur ts).lines
      = (handleStationChanges prev cur ts).events.map eventLine := rfl

lemma foundIn_eq_true_iff (x : String) (l : List String) :
    foundIn x l = true ↔ x ∈ l := by
  induction l with
  | nil => simp [foundIn]
  | cons p rest ih =>
    by_cases h : p = x
    · subst h; simp [foundIn]
    · have hb : (p == x) = false := beq_eq_false_iff_ne.mpr h
      simp [foundIn, hb, ih, Ne.symm h]

lemma foundIn_eq_false_iff (x : String) (l : List String) :
    foundIn x l = false ↔ x ∉ l := by
  simp [← foundIn_eq_true_iff x l]

lemma joinedMacs_connectedEvents (prev : List String) (ts : Nat) (cur : List String) :
    joinedMacs (connectedEvents prev cur ts) = cur.filter fun m => !foundIn m prev := by
  induction cur with
  | nil => rfl
  | cons c rest ih =>
    simp only [connectedEvents, joinedMacs, List.filterMap_cons] at ih ⊢
    cases h : foundIn c prev <;> simp [h, List.filter_cons, ih]

lemma joinedMacs_disconnectedEvents (prev cur : List String) (ts : Nat) :
    joinedMacs (disconnectedEvents prev cur ts) = [] := by
  induction prev with
  | nil => rfl
  | cons p rest ih =>
    simp only [disconnectedEvents, joinedMacs, List.filterMap_cons] at ih ⊢
    cases h : foundIn p cur <;> simp [h, ih]

lemma leftMacs_connectedEvents (prev cur : List String) (ts : Nat) :
    leftMacs (connectedEvents prev cur ts) = [] := by
  induction cur with
  | nil => rfl
  | cons c rest ih =>
    simp only [connectedEvents, leftMacs, List.filterMap_cons] at ih ⊢
    cases h : foundIn c prev <;> simp [h, ih]

lemma leftMacs_disconnectedEvents (cur : List String) (ts : Nat) (prev : List String) :
    leftMacs (disconnectedEvents prev cur ts) = prev.filter fun m => !foundIn m cur := by
  induction prev with
  | nil => rfl
  | cons p rest ih =>
    simp only [disconnectedEvents, leftMacs, List.filterMap_cons] at ih ⊢
    cases h : foundIn p cur <;> simp [h, List.filter_cons, ih]

lemma joinedMacs_append (a b : List Event) :
    joinedMacs (a ++ b) = joinedMacs a ++ joinedMacs b := by
  simp [joinedMacs]

lemma leftMacs_append (a b : List Event) :
    leftMacs (a ++ b) = leftMacs a ++ leftMacs b := by
  simp [leftMacs]

/-- C1: in one `handleStationChanges` call, the set of peers given a
`connected` record is exactly `current − previous`, the set of peers given a
`disconnected` record is exactly `previous − current`, and the stored
`prevStations` afterwards is exactly the current snapshot. -/
theorem s2p_C1 (prev current : List String) (ts : Nat) :
    (joinedMacs (handleStationChanges prev current ts).events).toFinset
        = current.toFinset \ prev.toFinset ∧
    (leftMacs (handleStationChanges prev current ts).events).toFinset
        = prev.toFinset \ current.toFinset ∧
    (handleStationChanges prev current ts).prev = current := by
  refine ⟨?_, ?_, rfl⟩
  · ext m
    simp [handleStationChanges_events, joinedMacs_append, joinedMacs_connectedEvents,
      joinedMacs_disconnectedEvents, List.mem_filter, foundIn_eq_false_iff,
      Bool.not_eq_true', List.mem_toFinset, Finset.mem_sdiff]
  · ext m
    simp [handleStationChanges_events, leftMacs_append, leftMacs_connectedEvents,
      leftMacs_disconnectedEvents, List.mem_filter, foundIn_eq_false_iff,
      Bool.not_eq_true', List.mem_toFinset, Finset.mem_sdiff]

lemma count_joinedMacs (prev cur : List String) (ts : Nat) (mac : String) :
    List.count mac (joinedMacs (handleStationChanges prev cur ts).events)
      = if mac ∈ prev then 0 else cur.count mac := by
  rw [handleStationChanges_events, joinedMacs_append,
    joinedMacs_connectedEvents prev ts cur, joinedMacs_disconnectedEvents prev cur ts,
    List.count_append]
  by_cases hp : mac ∈ prev
  · have h0 : List.count mac (cur.filter fun m => !foundIn m prev) = 0 := by
      refine List.count_eq_zero.mpr ?_
      simp [List.mem_filter, Bool.not_eq_true', foundIn_eq_false_iff, hp]
    simp [hp, h0]
  · have hpt : (!foundIn mac prev) = true := by
      simp [Bool.not_eq_true', foundIn_eq_false_iff, hp]
    have h1 : List.count mac (List.filter (fun m => !foundIn m prev) cur)
        = List.count mac cur := List.count_filter hpt
    simp [hp, h1]

/-- C3 counterexample: with an empty stored previous list and the duplicated
snapshot `["AA","AA"]`, the poll emits two `RadioJoined` events for peer
`"AA"` in the same tick — it does not deduplicate to at most one. -/
theorem s2p_C3_counterexample :
    List.count "AA" (joinedMacs (handleStationChanges [] ["AA", "AA"] 0).events) = 2 ∧
    ¬ List.count "AA" (joinedMacs (handleStationChanges [] ["AA", "AA"] 0).events) ≤ 1 := by
  decide

/-- C3 (amended): the poll does not deduplicate a duplicated snapshot: a
PeerId absent from the stored previous list receives one `RadioJoined` event
per occurrence in the snapshot (so a duplicated new peer gets several in one
tick), a PeerId already stored receives none regardless of multiplicity, and
the snapshot is stored verbatim, duplicates included. -/
theorem s2p_C3 (prev current : List String) (ts : Nat) (mac : String) :
    List.count mac (joinedMacs (handleStationChanges prev current ts).events)
        = (if mac ∈ prev then 0 else current.count mac) ∧
    (handleStationChanges prev current ts).prev = current :=
  ⟨count_joinedMacs prev current ts mac, rfl⟩

/-- C4: the firmware's UID rendering prepends an extra `"0"` for bytes below
`0x10` and then appends the already-zero-padded `%02X` form, so the one-byte
UID `0x0A` is rendered as the three characters `"00A"`, not as two hex digits
per byte as the claim (and the canonical-rendering intent) states. -/
theorem s2p_C4_bug :
    uidString [10] = "00A" ∧ (uidString [10]).length = 3 := by
  exact ⟨rfl, rfl⟩

/-- C8 counterexample: on a transport write failure `sendJson` hands its
caller exactly the same value `()` as on success — the failure is not
reported back to the Scheduler, and the line is simply lost. -/
theorem s2p_C8_counterexample :
    (sendJson false [] (wifiLine "connected" "AA" 0)).2
        = (sendJson true [] (wifiLine "connected" "AA" 0)).2 ∧
    (sendJson false [] (wifiLine "connected" "AA" 0)).1 = [] :=
  ⟨rfl, rfl⟩

/-- C8 (amended): `sendJson` is `void`: whether the serial write succeeds or
fails, the caller-visible result is the unit value, so a transport write
failure is swallowed rather than reported; on success the line is appended to
the channel, on failure it is lost. -/
theorem s2p_C8 (out : List String) (line : String) :
    (sendJson true out line).2 = () ∧
    (sendJson false out line).2 = (sendJson true out line).2 ∧
    (sendJson true out line).1 = out ++ [line] ∧
    (sendJson false out line).1 = out :=
  ⟨rfl, rfl, rfl, rfl⟩

/-- C9 counterexample: with previous `["A","B"]` and current `["B","C"]` the
emitted sequence is not `Left(A)` followed by `Joined(C)`: the connected loop
runs before the disconnected loop. -/
theorem s2p_C9_counterexample :
    (handleStationChanges ["A", "B"] ["B", "C"] 0).events
      ≠ [Event.radioLeft "A" 0, Event.radioJoined "C" 0] := by
  decide

/-- C9 (amended): with previous `["A","B"]` and current `["B","C"]` the poll
emits `Joined(C)` and then `Left(A)` — joins of a tick are emitted before
leaves — and emits no event for `B`. -/
theorem s2p_C9 :
    (handleStationChanges ["A", "B"] ["B", "C"] 0).events
      = [Event.radioJoined "C" 0, Event.radioLeft "A" 0] := by
  decide

/-- C5 counterexample: a card read in an iteration whose radio tick is not
due yields one event but two serial lines — the rfid record plus the debug
line `RFID read: 12` — so not every event causes exactly one line and no
others. -/
theorem s2p_C5_counterexample :
    (loopIteration ⟨[], 0⟩ 0 none (some [18])).events
        = [Event.cardPresented "12" 0] ∧
    (loopIteration ⟨[], 0⟩ 0 none (some [18])).lines
        = [rfidLine "12" 0, "RFID read: 12"] ∧
    (loopIteration ⟨[], 0⟩ 0 none (some [18])).lines.length ≠ 1 := by
  refine ⟨by decide, by decide, by decide⟩

/-- C5 (amended): within one iteration, every event yields exactly one
canonical newline-terminated record line, in event order; in addition a card
read appends exactly one further debug line `RFID read: <uid>` after its
record — so wifi events cause one line each and a card event causes two. -/
theorem s2p_C5 (st : LoopState) (now : Nat) (query : Option (List MacAddr))
    (card : Option (List Nat)) :
    (loopIteration st now query card).lines
      = (loopIteration st now query card).events.map eventLine
        ++ (match card with
            | none => []
            | some bytes => ["RFID read: " ++ uidString bytes]) := by
  cases card <;> cases h : tickDue now st.lastPoll <;>
    simp [loopIteration, h, handleStationChanges_lines, eventLine, List.map_append]

lemma disconnectedEvents_nil_current (ts : Nat) (prev : List String) :
    disconnectedEvents prev [] ts = prev.map fun m => Event.radioLeft m ts := by
  induction prev with
  | nil => rfl
  | cons p rest ih =>
    simp [disconnectedEvents, List.filterMap_cons, foundIn] at ih ⊢
    exact ih

lemma connectedEvents_nil_prev (ts : Nat) (cur : List String) :
    connectedEvents [] cur ts = cur.map fun m => Event.radioJoined m ts := by
  induction cur with
  | nil => rfl
  | cons c rest ih =>
    simp [connectedEvents, List.filterMap_cons, foundIn] at ih ⊢
    exact ih

/-- C7: a failed radio query is processed as the empty snapshot: that tick
emits one `RadioLeft` per stored peer and stores the empty list; a subsequent
successful tick whose snapshot again contains a previously-known peer emits a
`RadioJoined` for it. -/
theorem s2p_C7 (prev : List String) (ts1 ts2 : Nat) (stas : List MacAddr)
    (mac : String) (hknown : mac ∈ prev)
    (hin : mac ∈ getConnectedStationMACs (some stas)) :
    (handleStationChanges prev (getConnectedStationMACs none) ts1).events
        = prev.map (fun m => Event.radioLeft m ts1) ∧
    (handleStationChanges prev (getConnectedStationMACs none) ts1).prev = [] ∧
    Event.radioJoined mac ts2 ∈
      (handleStationChanges
        (handleStationChanges prev (getConnectedStationMACs none) ts1).prev
        (getConnectedStationMACs (some stas)) ts2).events := by
  have hemp : getConnectedStationMACs none = [] := rfl
  refine ⟨?_, rfl, ?_⟩
  · rw [hemp, handleStationChanges_events, disconnectedEvents_nil_current]
    rfl
  · rw [handleStationChanges_prev, hemp, handleStationChanges_events,
      connectedEvents_nil_prev]
    exact List.mem_append.mpr (Or.inl (List.mem_map_of_mem _ hin))

/-- Witness for C7: previous stored peer `00:00:00:00:00:00`, a failed query
tick, then a successful tick whose station list renders to the same peer. -/
theorem s2p_C7_witness :
    ("00:00:00:00:00:00" ∈ ["00:00:00:00:00:00"]) ∧
    ("00:00:00:00:00:00" ∈ getConnectedStationMACs (some [⟨0, 0, 0, 0, 0, 0⟩])) ∧
    ((handleStationChanges ["00:00:00:00:00:00"] (getConnectedStationMACs none) 1).events
        = ["00:00:00:00:00:00"].map (fun m => Event.radioLeft m 1) ∧
      (handleStationChanges ["00:00:00:00:00:00"] (getConnectedStationMACs none) 1).prev
        = [] ∧
      Event.radioJoined "00:00:00:00:00:00" 2 ∈
        (handleStationChanges
          (handleStationChanges ["00:00:00:00:00:00"] (getConnectedStationMACs none) 1).prev
          (getConnectedStationMACs (some [⟨0, 0, 0, 0, 0, 0⟩])) 2).events) :=
  ⟨by decide, by decide,
    s2p_C7 ["00:00:00:00:00:00"] 1 2 [⟨0, 0, 0, 0, 0, 0⟩] "00:00:00:00:00:00"
      (by decide) (by decide)⟩

/-- C10: in an iteration where the elapsed time since the last poll (32-bit
wraparound difference) is below `POLL_INTERVAL`, the stored previous station
list and the last-poll timestamp are both left unchanged, whatever the card
path does in that iteration. -/
theorem s2p_C10 (st : LoopState) (now : Nat) (query : Option (List MacAddr))
    (card : Option (List Nat))
    (h : (2 ^ 32 + now - st.lastPoll) % 2 ^ 32 < POLL_INTERVAL) :
    (loopIteration st now query card).state.prevStations = st.prevStations ∧
    (loopIteration st now query card).state.lastPoll = st.lastPoll := by
  have hdue : tickDue now st.lastPoll = false := by
    simp only [tickDue, decide_eq_false_iff_not, not_le]
    exact h
  cases card <;> simp [loopIteration, hdue]

/-- Witness for C10: one millisecond after a poll, with a card read in the
same iteration, the stored list and timestamp are untouched. -/
theorem s2p_C10_witness :
    ((2 ^ 32 + 6 - (5 : Nat)) % 2 ^ 32 < POLL_INTERVAL) ∧
    ((loopIteration ⟨["A"], 5⟩ 6 (some []) (some [1])).state.prevStations = ["A"] ∧
      (loopIteration ⟨["A"], 5⟩ 6 (some []) (some [1])).state.lastPoll = 5) :=
  ⟨by decide, s2p_C10 ⟨["A"], 5⟩ 6 (some []) (some [1]) (by decide)⟩

lemma peerTrace_append (mac : String) (a b : List Event) :
    peerTrace mac (a ++ b) = peerTrace mac a ++ peerTrace mac b := by
  simp [peerTrace]

lemma peerTrace_connectedEvents (prev : List String) (ts : Nat) (mac : String) :
    ∀ cur : List String,
      peerTrace mac (connectedEvents prev cur ts)
        = if foundIn mac prev then [] else List.replicate (cur.count mac) true
  | [] => by cases h : foundIn mac prev <;> simp [connectedEvents, peerTrace, h]
  | c :: rest => by
    have ih := peerTrace_connectedEvents prev ts mac rest
    by_cases hc : c = mac <;> cases h : foundIn c prev <;>
      simp_all [connectedEvents, peerTrace, List.filterMap_cons, List.count_cons,
        List.replicate_succ, beq_iff_eq]

lemma peerTrace_disconnectedEvents (cur : List String) (ts : Nat) (mac : String) :
    ∀ prev : List String,
      peerTrace mac (disconnectedEvents prev cur ts)
        = if foundIn mac cur then [] else List.replicate (prev.count mac) false
  | [] => by cases h : foundIn mac cur <;> simp [disconnectedEvents, peerTrace, h]
  | p :: rest => by
    have ih := peerTrace_disconnectedEvents cur ts mac rest
    by_cases hp : p = mac <;> cases h : foundIn p cur <;>
      simp_all [disconnectedEvents, peerTrace, List.filterMap_cons, List.count_cons,
        List.replicate_succ, beq_iff_eq]

lemma peerTrace_tick (prev cur : List String) (ts : Nat) (mac : String)
    (hp : prev.Nodup) (hc : cur.Nodup) :
    peerTrace mac (handleStationChanges prev cur ts).events
      = if mac ∈ cur then (if mac ∈ prev then [] else [true])
        else (if mac ∈ prev then [false] else []) := by
  rw [handleStationChanges_events, peerTrace_append,
    peerTrace_connectedEvents prev ts mac cur, peerTrace_disconnectedEvents cur ts mac prev]
  by_cases hmp : mac ∈ prev <;> by_cases hmc : mac ∈ cur
  · simp [(foundIn_eq_true_iff mac prev).mpr hmp, (foundIn_eq_true_iff mac cur).mpr hmc,
      hmp, hmc]
  · have h1 : prev.count mac = 1 := List.count_eq_one_of_mem hp hmp
    simp [(foundIn_eq_true_iff mac prev).mpr hmp, (foundIn_eq_false_iff mac cur).mpr hmc,
      hmp, hmc, h1]
  · have h1 : cur.count mac = 1 := List.count_eq_one_of_mem hc hmc
    simp [(foundIn_eq_false_iff mac prev).mpr hmp, (foundIn_eq_true_iff mac cur).mpr hmc,
      hmp, hmc, h1]
  · have h0c : cur.count mac = 0 := List.count_eq_zero.mpr hmc
    have h0p : prev.count mac = 0 := List.count_eq_zero.mpr hmp
    simp [(foundIn_eq_false_iff mac prev).mpr hmp, (foundIn_eq_false_iff mac cur).mpr hmc,
      hmp, hmc, h0c, h0p]

lemma peerTrace_runPolls (mac : String) :
    ∀ (snaps : List (List String)) (prev : List String), prev.Nodup →
      (∀ s ∈ snaps, s.Nodup) →
      List.Chain' (fun a b => a ≠ b) (peerTrace mac (runPolls prev snaps)) ∧
      ∀ b ∈ (peerTrace mac (runPolls prev snaps)).head?, b = !decide (mac ∈ prev)
  | [], prev, _, _ => by simp [runPolls, peerTrace]
  | s :: rest, prev, hp, hs => by
    have hsn : s.Nodup := hs s (by simp)
    have ih := peerTrace_runPolls mac rest s hsn (fun t ht => hs t (by simp [ht]))
    rw [show runPolls prev (s :: rest)
        = (handleStationChanges prev s 0).events ++ runPolls s rest from rfl,
      peerTrace_append, peerTrace_tick prev s 0 mac hp hsn]
    by_cases hmp : mac ∈ prev <;> by_cases hms : mac ∈ s
    · rw [if_pos hms, if_pos hmp]
      refine ⟨by simpa using ih.1, ?_⟩
      intro b hb
      simp only [List.nil_append] at hb
      rw [ih.2 b hb]
      simp [hms, hmp]
    · rw [if_neg hms, if_pos hmp]
      constructor
      · refine List.chain'_cons'.mpr ⟨?_, ih.1⟩
        intro y hy
        rw [ih.2 y hy]
        simp [hms]
      · intro b hb
        simp only [List.singleton_append, List.head?_cons, Option.mem_def,
          Option.some.injEq] at hb
        simp [← hb, hmp]
    · rw [if_pos hms, if_neg hmp]
      constructor
      · refine List.chain'_cons'.mpr ⟨?_, ih.1⟩
        intro y hy
        rw [ih.2 y hy]
        simp [hms]
      · intro b hb
        simp only [List.singleton_append, List.head?_cons, Option.mem_def,
          Option.some.injEq] at hb
        simp [← hb, hmp]
    · rw [if_neg hms, if_neg hmp]
      refine ⟨by simpa using ih.1, ?_⟩
      intro b hb
      simp only [List.nil_append] at hb
      rw [ih.2 b hb]
      simp [hms, hmp]

/-- C2: starting from the empty stored set, across any sequence of
duplicate-free snapshots, each peer's join/leave event trace strictly
alternates: no peer ever gets two `RadioJoined` events without an intervening
`RadioLeft`, nor two `RadioLeft` events without an intervening `RadioJoined`. -/
theorem s2p_C2 (snaps : List (List String)) (h : ∀ s ∈ snaps, s.Nodup)
    (mac : String) :
    List.Chain' (fun a b => a ≠ b) (peerTrace mac (runPolls [] snaps)) :=
  (peerTrace_runPolls mac snaps [] List.nodup_nil h).1

/-- Witness for C2: the snapshot sequence `["A"], [], ["A"]` produces the
alternating trace join, leave, join for peer `A`. -/
theorem s2p_C2_witness :
    (∀ s ∈ [["A"], [], ["A"]], List.Nodup s) ∧
    List.Chain' (fun a b => a ≠ b) (peerTrace "A" (runPolls [] [["A"], [], ["A"]])) :=
  ⟨by decide, s2p_C2 [["A"], [], ["A"]] (by decide) "A"⟩

lemma handleStationChanges_events_wifi (prev cur : List String) (ts : Nat) :
    ∀ e ∈ (handleStationChanges prev cur ts).events, isWifiEvent e = true := by
  intro e he
  rw [handleStationChanges_events] at he
  rcases List.mem_append.mp he with h | h
  · rcases List.mem_filterMap.mp h with ⟨m, _, hm⟩
    by_cases hf : foundIn m prev = true
    · simp [hf] at hm
    · simp [hf] at hm
      rw [← hm]
      rfl
  · rcases List.mem_filterMap.mp h with ⟨m, _, hm⟩
    by_cases hf : foundIn m cur = true
    · simp [hf] at hm
    · simp [hf] at hm
      rw [← hm]
      rfl

lemma loopIteration_events (st : LoopState) (now : Nat)
    (query : Option (List MacAddr)) (card : Option (List Nat)) :
    (loopIteration st now query card).events
      = (if tickDue now st.lastPoll then
           (handleStationChanges st.prevStations (getConnectedStationMACs query) now).events
         else [])
        ++ (match card with
            | none => []
            | some bytes => [Event.cardPresented (uidString bytes) now]) := by
  cases card <;> cases h : tickDue now st.lastPoll <;> simp [loopIteration, h]

lemma wifi_indices_before_card {a b : List Event}
    (ha : ∀ e ∈ a, isWifiEvent e = true) (hb : ∀ e ∈ b, isCardEvent e = true)
    {i j : Nat} (hi : i < (a ++ b).length) (hj : j < (a ++ b).length)
    (hci : isCardEvent ((a ++ b).get ⟨i, hi⟩) = true)
    (hwj : isWifiEvent ((a ++ b).get ⟨j, hj⟩) = true) : j < i := by
  have hwc : ∀ e : Event, isWifiEvent e = true → isCardEvent e = false := by
    intro e h
    cases e <;> simp_all [isWifiEvent, isCardEvent]
  have hcw : ∀ e : Event, isCardEvent e = true → isWifiEvent e = false := by
    intro e h
    cases e <;> simp_all [isWifiEvent, isCardEvent]
  have hia : a.length ≤ i := by
    by_contra hlt
    push_neg at hlt
    have hget : (a ++ b).get ⟨i, hi⟩ = a.get ⟨i, hlt⟩ := List.get_append i hlt
    have hwi : isWifiEvent (a.get ⟨i, hlt⟩) = true := ha _ (a.get_mem i hlt)
    rw [hget, hwc _ hwi] at hci
    exact Bool.false_ne_true hci
  by_contra hji
  push_neg at hji
  have hja : a.length ≤ j := le_trans hia hji
  have hjb : j - a.length < b.length := by
    have hj2 := hj
    rw [List.length_append] at hj2
    omega
  have hget : (a ++ b).get ⟨j, hj⟩ = b.get ⟨j - a.length, hjb⟩ :=
    List.get_append_right a b hja
  have hcj : isCardEvent (b.get ⟨j - a.length, hjb⟩) = true := hb _ (b.get_mem _ _)
  rw [hget, hcw _ hcj] at hwj
  exact Bool.false_ne_true hwj

lemma wifi_before_card_in (l a b : List Event) (hl : l = a ++ b)
    (ha : ∀ e ∈ a, isWifiEvent e = true) (hb : ∀ e ∈ b, isCardEvent e = true)
    (i j : Nat) (hi : i < l.length) (hj : j < l.length)
    (hci : isCardEvent (l.get ⟨i, hi⟩) = true)
    (hwj : isWifiEvent (l.get ⟨j, hj⟩) = true) : j < i := by
  subst hl
  exact wifi_indices_before_card ha hb hi hj hci hwj

/-- C6: within one loop iteration every wifi record (the radio tick's joined
and left events, when the tick is due) occurs in the emitted event sequence
strictly before any card record of that same iteration — so no
`CardPresented` is interleaved among the tick's wifi events. -/
theorem s2p_C6 (st : LoopState) (now : Nat) (query : Option (List MacAddr))
    (card : Option (List Nat)) (i j : Nat)
    (hi : i < (loopIteration st now query card).events.length)
    (hj : j < (loopIteration st now query card).events.length)
    (hci : isCardEvent ((loopIteration st now query card).events.get ⟨i, hi⟩) = true)
    (hwj : isWifiEvent ((loopIteration st now query card).events.get ⟨j, hj⟩) = true) :
    j < i := by
  refine wifi_before_card_in _ _ _ (loopIteration_events st now query card)
    ?_ ?_ i j hi hj hci hwj
  · intro e he
    by_cases h : tickDue now st.lastPoll = true
    · rw [if_pos h] at he
      exact handleStationChanges_events_wifi _ _ _ e he
    · rw [if_neg h] at he
      simp at he
  · intro e he
    cases card with
    | none => simp at he
    | some bytes =>
      simp at he
      rw [he]
      rfl

/-- Witness for C6: a due tick with one joining station plus a card read in
the same iteration; the card event (index 1) comes after the wifi event
(index 0). -/
theorem s2p_C6_witness :
    isCardEvent ((loopIteration ⟨[], 0⟩ 2000 (some [⟨0, 0, 0, 0, 0, 0⟩])
        (some [18])).events.get ⟨1, by decide⟩) = true ∧
    isWifiEvent ((loopIteration ⟨[], 0⟩ 2000 (some [⟨0, 0, 0, 0, 0, 0⟩])
        (some [18])).events.get ⟨0, by decide⟩) = true ∧
    (0 : Nat) < 1 :=
  ⟨by decide, by decide,
    s2p_C6 ⟨[], 0⟩ 2000 (some [⟨0, 0, 0, 0, 0, 0⟩]) (some [18]) 1 0
      (by decide) (by decide) (by decide) (by decide)⟩
